import Mathlib

/-!
Verification development for the QMB6Pro register-acquisition core.

The Python sources are shallowly embedded as Lean definitions:
* `decodeReg` / `read_all` embed `read_all` from `src/modbus_client.py`
  (lines 35–77), together with its helpers `words_to_ascii` (lines 23–27)
  and `words_to_ip` (lines 29–33).
* `decodeRegApp` / `read_all_app` embed the older duplicate `read_all`
  from `src/app.py` (lines 29–60); its `words_to_ascii` / `words_to_ip`
  helpers are byte-for-byte identical to the ones of `modbus_client.py`,
  so the same Lean helpers are reused.
* `scale_to_raw` embeds `scale_to_raw` from `src/modbus_client.py`
  (lines 85–87); `onWriteNumeric` embeds the numeric branch of `_on_write`
  from `src/app_gui.py` (lines 335–352).
* `probeOnce` / `autodetect` embed `_probe_once` and `autodetect` from
  `src/autodetect.py` (lines 35–57).
* `workerStep` embeds one iteration of `App._worker_loop` from
  `src/app_gui.py` (lines 424–446).

Modelling conventions, stated once:
* A Modbus transport is a function from `(address, count, functioncode)`
  to either a list of register words or the class name of the raised
  Python exception (`Except.error`).  `minimalmodbus.read_registers`
  returns unsigned words.
* Python `float` arithmetic on register scales is modelled exactly over
  `ℚ`; every numeric instance appearing in the claims (scales `1.0`,
  small decimals, integer register values) is exactly representable in
  binary64, so no rounding discrepancy is hidden by this choice.
* JSON `map` keys are decimal strings of integers in the source
  (`r['map'].get(str(w), w)`, `int(bit_str)`); they are modelled as the
  integers themselves.
* Python's per-register `try/except Exception` makes the loop body of
  `read_all` total: every exception raised by a read or transform is
  converted to the string `'ERR:<ExceptionName>'` stored under the
  register's name.  The embedding is therefore a total function, and the
  out-of-range indexing `words[0]` / `words[1]` on a short reply is
  mapped to the `IndexError` marker exactly as CPython would produce.
* Python `dict` insertion semantics (`out[name] = v`) are modelled by
  `dictInsert` on association lists: an existing key is updated in
  place, a new key is appended.
-/

/-- Decoded value as produced by the dynamically-typed Python code: a
(scaled) number, a boolean, a string (ascii / ip / mac text, an enum
label, the `'UNSUPPORTED'` marker, or an `'ERR:…'` marker — all of these
are `str` in Python), or a list of bitmask labels. -/
inductive Value where
  | num (q : ℚ)
  | bool (b : Bool)
  | str (s : String)
  | flags (l : List String)
deriving DecidableEq, Repr

/-- Register descriptor, mirroring the JSON dictionaries consumed by
`read_all`: `r['name']`, `r['type']`, `r['address']`,
`r.get('function', 3)`, `float(r.get('scale', 1.0))`,
`r.get('words', 1)`, the optional `r['map']`, and the optional
`r['min']` / `r['max']` bounds used by the write path. -/
structure Reg where
  name : String
  type : String
  address : Nat
  function : Nat := 3
  scale : ℚ := 1
  words : Nat := 1
  map : Option (List (Nat × String)) := none
  min : Option ℚ := none
  max : Option ℚ := none
deriving DecidableEq, Repr

/-- Abstract Modbus transport: the behaviour of
`cli.read_regs(address, count, functioncode)`.  An `Except.error e`
models the read raising a Python exception whose class name is `e`. -/
abbrev Transport := Nat → Nat → Nat → Except String (List Nat)

/-- Error marker `f'ERR:{type(e).__name__}'` stored for a failed
register (modbus_client.py line 76 and app.py line 59). -/
def errVal (e : String) : Value := Value.str ("ERR:" ++ e)

/-- Python whitespace characters stripped by `str.strip()`. -/
def pyIsSpace (c : Char) : Bool :=
  c = ' ' ∨ c = '\t' ∨ c = '\n' ∨ c = '\r' ∨ c = '\x0b' ∨ c = '\x0c'

/-- Drop matching characters from the end of a list (Python `rstrip`). -/
def dropTrailing (p : Char → Bool) (l : List Char) : List Char :=
  (l.reverse.dropWhile p).reverse

/-- Split each word into high byte then low byte, exactly as the loops
in `words_to_ascii` and `words_to_ip` do. -/
def wordBytes (ws : List Nat) : List Nat :=
  ws.flatMap (fun w => [(w >>> 8) &&& 0xFF, w &&& 0xFF])

/-- Embedding of `words_to_ascii` (modbus_client.py lines 23–27, and the
identical copy at app.py lines 17–21): bytes high-first per word, decode
as ASCII ignoring invalid bytes (`errors='ignore'` drops bytes ≥ 0x80),
strip trailing NULs, then strip surrounding whitespace. -/
def words_to_ascii (ws : List Nat) : String :=
  let chars := ((wordBytes ws).filter (fun b => b < 128)).map Char.ofNat
  let noNul := dropTrailing (fun c => c = '\x00') chars
  String.mk (dropTrailing pyIsSpace (noNul.dropWhile pyIsSpace))

/-- Embedding of `words_to_ip` (modbus_client.py lines 29–33, and the
identical copy at app.py lines 23–27). -/
def words_to_ip (ws : List Nat) : String :=
  String.intercalate "." ((wordBytes ws).map (fun b => toString b))

/-- Uppercase hexadecimal digit. -/
def hexDigit (n : Nat) : Char :=
  if n < 10 then Char.ofNat ('0'.toNat + n) else Char.ofNat ('A'.toNat + n - 10)

/-- Python `f"{x:02X}"` for a byte value (all inputs are masked with
`& 0xFF` in the source, hence < 256). -/
def hex2 (n : Nat) : String := String.mk [hexDigit (n / 16), hexDigit (n % 16)]

/-- Embedding of the mac48 rendering (modbus_client.py lines 65–66):
`b = [(w >> 8) & 0xFF for w in words] + [w & 0xFF for w in words]`, then
`':'.join(f"{x:02X}" for x in b[:6])` — note the high bytes of all
words come first, then the low bytes. -/
def macString (ws : List Nat) : String :=
  let b := ws.map (fun w => (w >>> 8) &&& 0xFF) ++ ws.map (fun w => w &&& 0xFF)
  String.intercalate ":" ((b.take 6).map hex2)

/-- Embedding of the enum16 lookup `r['map'].get(str(w), w)`
(modbus_client.py line 46, app.py line 40): the label when the raw word
is a key of the map, otherwise the raw integer itself (unscaled). -/
def enumLookup (m : List (Nat × String)) (w : Nat) : Value :=
  match m.find? (fun p => p.1 == w) with
  | some p => Value.str p.2
  | none => Value.num w

/-- Embedding of the bitmask16 decoding loop (modbus_client.py lines
48–52): collect `label` for every `(mask, label)` entry with
`w & mask != 0`, in map iteration (= insertion) order. -/
def bitmaskFlags (m : List (Nat × String)) (w : Nat) : Value :=
  Value.flags (m.filterMap (fun p => if (w &&& p.1) != 0 then some p.2 else none))

/-- Embedding of the 32-bit word assembly (modbus_client.py line 69,
app.py line 49): `(words[0] << 16) | words[1]` when the configured
endianness is the string `'big'`, otherwise `(words[1] << 16) | words[0]`. -/
def assemble32 (endianness : String) (w0 w1 : Nat) : Nat :=
  if endianness = "big" then (w0 <<< 16) ||| w1 else (w1 <<< 16) ||| w0

/-- Embedding of the int32 sign fix (modbus_client.py lines 70–71,
app.py lines 50–51): when the type is `'int32'` and bit 31 is set,
`val = -((~val & 0xFFFFFFFF) + 1)`.  Python `~val` is `-val - 1` and
`& 0xFFFFFFFF` on it is the mathematical `mod 2^32` (Lean's `%` on `ℤ`
is also Euclidean, so the translation is literal). -/
def signFix32 (t : String) (val : Nat) : ℤ :=
  if t = "int32" ∧ val &&& 0x80000000 ≠ 0 then
    -(((-(val : ℤ) - 1) % 4294967296) + 1)
  else (val : ℤ)

/-- Embedding of the body of the per-register `try` block of `read_all`
in `src/modbus_client.py` (lines 38–76), including the `except` clause:
the value stored under `r['name']` for one register.  Exceptions raised
by the transport become `errVal`; indexing a too-short reply becomes the
`IndexError` marker. -/
def decodeReg (cli : Transport) (endianness : String) (r : Reg) : Value :=
  if r.type = "uint16" ∨ r.type = "int16" ∨ r.type = "enum16" ∨ r.type = "bool16" ∨
      r.type = "command16" ∨ r.type = "bitmask16" then
    match cli r.address 1 r.function with
    | Except.error e => errVal e
    | Except.ok ws =>
      match ws with
      | [] => errVal "IndexError"
      | w :: _ =>
        if r.type = "bool16" then Value.bool (w != 0)
        else if r.type = "enum16" ∧ r.map.isSome then enumLookup (r.map.getD []) w
        else if r.type = "bitmask16" ∧ r.map.isSome then bitmaskFlags (r.map.getD []) w
        else Value.num ((w : ℚ) * r.scale)
  else if r.type = "uint32" ∨ r.type = "int32" ∨ r.type = "ip32" ∨ r.type = "mac48" ∨
      r.type = "ascii" then
    if r.type = "ascii" then
      match cli r.address r.words r.function with
      | Except.error e => errVal e
      | Except.ok ws => Value.str (words_to_ascii ws)
    else
      match cli r.address (if r.type = "mac48" then 3 else 2) r.function with
      | Except.error e => errVal e
      | Except.ok ws =>
        if r.type = "ip32" then Value.str (words_to_ip ws)
        else if r.type = "mac48" then Value.str (macString ws)
        else
          match ws with
          | w0 :: w1 :: _ =>
            Value.num ((signFix32 r.type (assemble32 endianness w0 w1) : ℚ) * r.scale)
          | _ => errVal "IndexError"
  else Value.str "UNSUPPORTED"

/-- Python `dict` assignment `out[k] = v`: update an existing key in
place, otherwise append at the end (dicts preserve insertion order). -/
def dictInsert (m : List (String × Value)) (k : String) (v : Value) :
    List (String × Value) :=
  if m.any (fun p => p.1 == k) then
    m.map (fun p => if p.1 == k then (k, v) else p)
  else m ++ [(k, v)]

/-- Embedding of `read_all` from `src/modbus_client.py` (lines 35–77):
fold the per-register decode over the register list, inserting each
result under the register's name. -/
def read_all (cli : Transport) (regs : List Reg) (endianness : String) :
    List (String × Value) :=
  regs.foldl (fun out r => dictInsert out r.name (decodeReg cli endianness r)) []

/-- Embedding of the per-register body of the older duplicate `read_all`
in `src/app.py` (lines 31–59).  Differences from `decodeReg` are exactly
those of the source: the 16-bit branch does not list `bitmask16`, and
the second branch lists only `uint32/int32/ip32` (always reading 2
words), with `ascii` as a separate `elif`; `mac48` and `bitmask16` fall
through to the `'UNSUPPORTED'` case. -/
def decodeRegApp (cli : Transport) (endianness : String) (r : Reg) : Value :=
  if r.type = "uint16" ∨ r.type = "int16" ∨ r.type = "enum16" ∨ r.type = "bool16" ∨
      r.type = "command16" then
    match cli r.address 1 r.function with
    | Except.error e => errVal e
    | Except.ok ws =>
      match ws with
      | [] => errVal "IndexError"
      | w :: _ =>
        if r.type = "bool16" then Value.bool (w != 0)
        else if r.type = "enum16" ∧ r.map.isSome then enumLookup (r.map.getD []) w
        else Value.num ((w : ℚ) * r.scale)
  else if r.type = "uint32" ∨ r.type = "int32" ∨ r.type = "ip32" then
    match cli r.address 2 r.function with
    | Except.error e => errVal e
    | Except.ok ws =>
      if r.type = "ip32" then Value.str (words_to_ip ws)
      else
        match ws with
        | w0 :: w1 :: _ =>
          Value.num ((signFix32 r.type (assemble32 endianness w0 w1) : ℚ) * r.scale)
        | _ => errVal "IndexError"
  else if r.type = "ascii" then
    match cli r.address r.words r.function with
    | Except.error e => errVal e
    | Except.ok ws => Value.str (words_to_ascii ws)
  else Value.str "UNSUPPORTED"

/-- Embedding of `read_all` from `src/app.py` (lines 29–60). -/
def read_all_app (cli : Transport) (regs : List Reg) (endianness : String) :
    List (String × Value) :=
  regs.foldl (fun out r => dictInsert out r.name (decodeRegApp cli endianness r)) []

/-- Python `round()` with no `ndigits`: round half to even, returning an
integer. -/
def pyRound (q : ℚ) : ℤ :=
  let f : ℤ := ⌊q⌋
  if q - f < 1 / 2 then f
  else if 1 / 2 < q - f then f + 1
  else if f % 2 = 0 then f else f + 1

/-- Embedding of `scale_to_raw` from `src/modbus_client.py` (lines
85–87): `int(round(val / scale)) if scale != 0 else int(round(val))`
(`int()` of an integer is the identity). -/
def scale_to_raw (val : ℚ) (reg : Reg) : ℤ :=
  if reg.scale ≠ 0 then pyRound (val / reg.scale) else pyRound val

/-- Embedding of the numeric branch of `_on_write` in `src/app_gui.py`
(lines 347–351): the input text already parsed by `float(text)` into
`fv`; then `if 'min' in reg: fv = max(float(reg['min']), fv)`,
`if 'max' in reg: fv = min(float(reg['max']), fv)`, and finally
`iv = scale_to_raw(fv, reg)`. -/
def onWriteNumeric (reg : Reg) (fv : ℚ) : ℤ :=
  let fv1 := match reg.min with | some m => max m fv | none => fv
  let fv2 := match reg.max with | some m => min m fv1 | none => fv1
  scale_to_raw fv2 reg

/-- Check used by `_probe_once` (autodetect.py line 43): a decoded value
counts as a failure exactly when it is a string starting with
`'ERR:'` (`isinstance(val, str) and val.startswith('ERR:')`).  The
prefix test is expressed on the character list, which is extensionally
`String.startsWith` but evaluates by kernel reduction. -/
def isErrStr : Value → Bool
  | Value.str s => s.data.take 4 == "ERR:".data
  | _ => false

/-- Embedding of `_probe_once` from `src/autodetect.py` (lines 35–45).
`env port baud parity` models `RTUClient(port, baud, slave_id,
parity=parity)`: constructing the throwaway client either yields a
transport or raises (`Except.error`), in which case the surrounding
`except` returns `False`.  Otherwise the probe register is decoded via
`read_all` on the one-element list and the candidate is accepted iff
the entry under the probe's name is not an `'ERR:'` string. -/
def probeOnce (env : String → Nat → String → Except String Transport)
    (port : String) (baud : Nat) (parity : String) (probe : Reg)
    (endianness : String) : Bool :=
  match env port baud parity with
  | Except.error _ => false
  | Except.ok cli =>
    match List.lookup probe.name (read_all cli [probe] endianness) with
    | some v => !(isErrStr v)
    | none => true

/-- The fixed descending baud preference list of `src/autodetect.py`
(line 11). -/
def COMMON_BAUDS : List Nat := [115200, 57600, 38400, 19200, 9600]

/-- The fixed parity candidate set of `src/autodetect.py` (line 12). -/
def COMMON_PARITIES : List String := ["N"]

/-- Embedding of the scanning loops of `autodetect` from
`src/autodetect.py` (lines 51–57): for each port (in OS-reported
order), for each parity, for each baud, return the first candidate
triple accepted by `_probe_once`; `None` when the loops exhaust.
Configuration loading (lines 48–50) is outside the loop and is passed
in as the `probe` and `endianness` parameters. -/
def autodetect (env : String → Nat → String → Except String Transport)
    (probe : Reg) (endianness : String) (ports : List String) :
    Option (String × Nat × String) :=
  ports.findSome? (fun port =>
    COMMON_PARITIES.findSome? (fun parity =>
      COMMON_BAUDS.findSome? (fun baud =>
        if probeOnce env port baud parity probe endianness then
          some (port, baud, parity)
        else none)))

/-- The candidate enumeration order of the `autodetect` loops: ports
outermost, then parities, then bauds; each candidate as the
`(port, baud, parity)` triple the function would return. -/
def candidateTriples (ports : List String) : List (String × Nat × String) :=
  ports.flatMap (fun port =>
    COMMON_PARITIES.flatMap (fun parity =>
      COMMON_BAUDS.map (fun baud => (port, baud, parity))))

/-- Events that `App._worker_loop` pushes onto the UI queue: status
messages and acquisition data. -/
inductive Event where
  | status (s : String)
  | data (vs : List (String × Value))
deriving DecidableEq

/-- Worker-loop state: the `self.connected` flag and the
`self.cli` transport reference of `App` in `src/app_gui.py`. -/
structure LoopState where
  connected : Bool
  cli : Option Transport

/-- Embedding of one iteration of `App._worker_loop` from
`src/app_gui.py` (lines 424–446).  When disconnected it runs discovery
(`autodet` is the result of the `autodetect()` call) and, on success,
constructs the durable client (`connect`, which may raise) and emits
the `Connected:` status; any exception in this branch is caught by the
iteration's `except`, which resets the state and emits the
`Disconnected:` status.  When connected it runs `read_all` over the
full register list and emits a data event; `read_all` is total (every
exception is absorbed per register, lines 75–76 of modbus_client.py),
so on the connected path no exception can reach the iteration's
`except` from the acquisition itself — the only modelled exception
there is the `AttributeError` of calling through `self.cli = None`.
`time.sleep` and `time.time` are not modelled. -/
def workerStep (slave : Nat) (autodet : Option (String × Nat × String))
    (connect : String → Nat → String → Except String Transport)
    (regs : List Reg) (endianness : String) (st : LoopState) :
    LoopState × List Event :=
  if !st.connected then
    match autodet with
    | some (port, baud, parity) =>
      match connect port baud parity with
      | Except.ok cli =>
        (⟨true, some cli⟩,
          [Event.status ("Connected: " ++ port ++ " " ++ toString baud ++ " " ++
            parity ++ ", slave=" ++ toString slave)])
      | Except.error e =>
        (⟨false, none⟩,
          [Event.status ("Disconnected: " ++ e ++ ". Waiting for device…")])
    | none => (st, [])
  else
    match st.cli with
    | some cli => (st, [Event.data (read_all cli regs endianness)])
    | none =>
      (⟨false, none⟩,
        [Event.status ("Disconnected: AttributeError. Waiting for device…")])

/-! Concrete fixtures used by witnesses and counterexamples. -/

/-- An `int16` register with `scale = 1.0`. -/
def int16Reg : Reg := { name := "T", type := "int16", address := 0, scale := 1 }

/-- Transport whose every read replies with the single word `0x8000`. -/
def cli8000 : Transport := fun _ _ _ => Except.ok [0x8000]

/-- Transport whose every read replies with the single word `0xFFFF`
(the 16-bit two's-complement image of `-1`). -/
def cliFFFF : Transport := fun _ _ _ => Except.ok [0xFFFF]

/-- A `mac48` register. -/
def macReg : Reg := { name := "MAC", type := "mac48", address := 0 }

/-- Transport replying with the spec's mac48 example words. -/
def cliMac : Transport := fun _ _ _ => Except.ok [0x0011, 0x2233, 0x4455]

/-- A `bitmask16` register with the spec's example symbol map. -/
def bitmaskReg : Reg :=
  { name := "B", type := "bitmask16", address := 0, map := some [(1, "RUNNING"), (2, "FAULT")] }

/-- Transport replying with the single word `3`. -/
def cliThree : Transport := fun _ _ _ => Except.ok [3]

/-- A `uint32` register with `scale = 1.0`. -/
def uint32Reg : Reg := { name := "U", type := "uint32", address := 0, scale := 1 }

/-- An `int32` register with `scale = 1.0`. -/
def int32Reg : Reg := { name := "I", type := "int32", address := 0, scale := 1 }

/-- Transport whose every read replies with the two words `w0, w1`. -/
def cliPair (w0 w1 : Nat) : Transport := fun _ _ _ => Except.ok [w0, w1]

/-- A `uint16` register at address 10, named "A". -/
def regA : Reg := { name := "A", type := "uint16", address := 10, scale := 1 }

/-- A `uint16` register at address 0, named "B". -/
def regB : Reg := { name := "B", type := "uint16", address := 0, scale := 1 }

/-- Transport that raises `NoResponseError` for address 10 and replies
`[5]` everywhere else: the spec's "simulated transport exception for
address 10" scenario. -/
def cliAddr10Err : Transport := fun addr _ _ =>
  if addr = 10 then Except.error "NoResponseError" else Except.ok [5]

/-- Transport whose every read raises `SerialException` (the serial
line itself is gone). -/
def errTransport : Transport := fun _ _ _ => Except.error "SerialException"

/-- Client-construction environment in which every candidate always
errors (`_probe_once` returns `False` for every triple). -/
def envFail : String → Nat → String → Except String Transport :=
  fun _ _ _ => Except.ok errTransport

/-- A numeric register with `bounds = (0, 100)` and `scale = 1.0`. -/
def boundsReg : Reg :=
  { name := "W", type := "uint16", address := 0, scale := 1, min := some 0, max := some 100 }

/-- The same bounded register with the pathological `scale = 0`. -/
def boundsRegZeroScale : Reg :=
  { name := "W0", type := "uint16", address := 0, scale := 0, min := some 0, max := some 100 }

/-- A mixed register list containing no `bitmask16` and no `mac48`
descriptor (every other supported type, plus an unknown one). -/
def regsMixed : List Reg :=
  [ { name := "u16", type := "uint16", address := 0, scale := 1 },
    { name := "i16", type := "int16", address := 1, scale := 1 },
    { name := "e16", type := "enum16", address := 2, map := some [(3, "RUN")] },
    { name := "b16", type := "bool16", address := 3 },
    { name := "c16", type := "command16", address := 4, scale := 1 },
    { name := "u32", type := "uint32", address := 5, scale := 1 },
    { name := "i32", type := "int32", address := 7, scale := 1 },
    { name := "ip", type := "ip32", address := 9 },
    { name := "txt", type := "ascii", address := 11, words := 2 },
    { name := "odd", type := "float64", address := 13 } ]

/-- Transport whose every read replies with three words. -/
def cliWords : Transport := fun _ _ _ => Except.ok [3, 0x4142, 0x4300]

/-- A `bool16` register used to exhibit duplicate-descriptor collapse. -/
def dupReg : Reg := { name := "D", type := "bool16", address := 2 }

/-- The eleven register types the decoder dispatches on (every one of
them performs a transport read before producing its value). -/
def supportedTypes : List String :=
  ["uint16", "int16", "enum16", "bool16", "command16", "bitmask16",
   "uint32", "int32", "ip32", "mac48", "ascii"]



/-! Helper lemmas about the embedded definitions. -/

/-- Inserting a fresh key into a Python dict appends it at the end. -/
theorem dictInsert_of_not_mem (m : List (String × Value)) (k : String) (v : Value)
    (h : ∀ p ∈ m, p.1 ≠ k) : dictInsert m k v = m ++ [(k, v)] := by
  have hany : m.any (fun p => p.1 == k) = false := by
    simp only [List.any_eq_false, beq_iff_eq]
    exact h
  simp [dictInsert, hany]

/-- Folding `dictInsert` over registers with pairwise-distinct names
extends the accumulator by one appended entry per register. -/
theorem foldl_dictInsert_eq_append (f : Reg → Value) :
    ∀ (regs : List Reg) (out : List (String × Value)),
      (regs.map Reg.name).Nodup →
      (∀ r ∈ regs, ∀ p ∈ out, p.1 ≠ r.name) →
      regs.foldl (fun o r => dictInsert o r.name (f r)) out
        = out ++ regs.map (fun r => (r.name, f r))
  | [], out, _, _ => by simp
  | r :: rs, out, hnd, hout => by
    simp only [List.foldl_cons, List.map_cons]
    rw [dictInsert_of_not_mem _ _ _ (fun p hp => hout r (by simp) p hp)]
    have hnd' := (List.nodup_cons.mp hnd)
    rw [foldl_dictInsert_eq_append f rs (out ++ [(r.name, f r)]) hnd'.2 ?fresh]
    · simp
    case fresh =>
      intro r' hr' p hp
      rcases List.mem_append.mp hp with hmem | hmem
      · exact hout r' (List.mem_cons_of_mem _ hr') p hmem
      · have hp1 : p = (r.name, f r) := by simpa using hmem
        subst hp1
        intro hcontra
        have hc : r.name = r'.name := hcontra
        exact hnd'.1 (hc.symm ▸ List.mem_map_of_mem Reg.name hr')

/-- With pairwise-distinct register names, `read_all` is exactly the
per-register decode, one entry per descriptor in list order. -/
theorem read_all_eq_map (cli : Transport) (endianness : String) (regs : List Reg)
    (hnd : (regs.map Reg.name).Nodup) :
    read_all cli regs endianness = regs.map (fun r => (r.name, decodeReg cli endianness r)) := by
  simpa using foldl_dictInsert_eq_append (decodeReg cli endianness) regs [] hnd (by simp)

/-- Looking a register's name up in the decoded association list
returns that register's decoded value (distinct names). -/
theorem lookup_map_name (f : Reg → Value) :
    ∀ (regs : List Reg), (regs.map Reg.name).Nodup → ∀ r ∈ regs,
      List.lookup r.name (regs.map (fun s => (s.name, f s))) = some (f r)
  | [], _, r, hr => by simp at hr
  | r' :: rs, hnd, r, hr => by
    have hnd' := List.nodup_cons.mp hnd
    rcases List.mem_cons.mp hr with rfl | hmem
    · simp [List.lookup]
    · have hne : (r.name == r'.name) = false := by
        rw [beq_eq_false_iff_ne]
        intro hcontra
        exact hnd'.1 (hcontra ▸ List.mem_map_of_mem Reg.name hmem)
      simp only [List.map_cons, List.lookup, hne]
      exact lookup_map_name f rs hnd'.2 r hmem

/-- A register of any supported type whose every read raises decodes to
the error marker: each branch of the decoder performs its transport read
before producing a value. -/
theorem decodeReg_of_err (cli : Transport) (endianness : String) (r : Reg) (en : String)
    (hsupp : r.type ∈ supportedTypes)
    (herr : ∀ count, cli r.address count r.function = Except.error en) :
    decodeReg cli endianness r = errVal en := by
  simp only [supportedTypes, List.mem_cons, List.not_mem_nil, or_false] at hsupp
  rcases hsupp with h | h | h | h | h | h | h | h | h | h | h <;>
    simp [decodeReg, h, herr]

/-- Shifted-or equals positional arithmetic when the low word fits in
16 bits. -/
theorem shiftLeft16_or (a b : Nat) (hb : b < 65536) : (a <<< 16) ||| b = a * 65536 + b := by
  have h := Nat.mul_add_lt_is_or (show b < 2 ^ 16 by omega) a
  rw [Nat.shiftLeft_eq, Nat.mul_comm a (2 ^ 16), ← h]

/-- Bit 31 of a value below 2^32 is set exactly when the value is at
least 2^31. -/
theorem bit31_ne_zero_iff (val : Nat) (hlt : val < 4294967296) :
    val &&& 2147483648 ≠ 0 ↔ 2147483648 ≤ val := by
  have h : val &&& 2147483648 = (val.testBit 31).toNat * 2147483648 := by
    have h2 := Nat.and_two_pow val 31
    norm_num at h2
    exact h2
  have ht : val.testBit 31 = decide (val / 2147483648 % 2 = 1) := by
    have h3 : val.testBit 31 = decide (val / 2 ^ 31 % 2 = 1) := Nat.testBit_to_div_mod
    norm_num at h3
    exact h3
  rw [h, ht]
  rcases Nat.lt_or_ge val 2147483648 with hc | hc
  · have hz : val / 2147483648 = 0 := Nat.div_eq_of_lt hc
    simp [hz]
    omega
  · have h1 : val / 2147483648 = 1 := by omega
    simp [h1]
    omega

/-- The int32 sign fix is the two's-complement reinterpretation. -/
theorem signFix32_int32_eq (val : Nat) (hlt : val < 4294967296) :
    signFix32 "int32" val
      = if 2147483648 ≤ val then (val : ℤ) - 4294967296 else (val : ℤ) := by
  unfold signFix32
  rcases Nat.lt_or_ge val 2147483648 with hc | hc
  · rw [if_neg, if_neg]
    · omega
    · intro hand
      exact absurd ((bit31_ne_zero_iff val hlt).mp hand.2) (by omega)
  · rw [if_pos ⟨rfl, (bit31_ne_zero_iff val hlt).mpr hc⟩, if_pos hc]
    omega

/-- Types other than `int32` are left unsigned by the sign fix. -/
theorem signFix32_other (t : String) (val : Nat) (hne : t ≠ "int32") :
    signFix32 t val = (val : ℤ) := by
  unfold signFix32
  rw [if_neg]
  intro hand
  exact hne hand.1

/-- A guarded `findSome?` is a `find?` over the mapped list. -/
theorem findSome?_guard_map {α β : Type} (p : β → Bool) (f : α → β) :
    ∀ l : List α,
      (l.findSome? fun x => if p (f x) then some (f x) else none) = (l.map f).find? p
  | [] => by simp
  | x :: xs => by
    simp only [List.findSome?_cons, List.map_cons, List.find?]
    cases hc : p (f x) <;> simp [hc, findSome?_guard_map p f xs]

/-- Nested first-success search equals `find?` over the flattened
candidate list. -/
theorem findSome?_find?_flatMap {α β : Type} (p : β → Bool) (g : α → List β) :
    ∀ l : List α, (l.findSome? fun a => (g a).find? p) = (l.flatMap g).find? p
  | [] => by simp
  | x :: xs => by
    have ih := findSome?_find?_flatMap p g xs
    simp only [List.findSome?_cons, List.flatMap_cons, List.find?_append]
    cases hf : (g x).find? p
    · exact ih
    · rfl

/-- On every type other than `bitmask16` and `mac48`, the duplicated
decoder of `app.py` agrees with the one of `modbus_client.py`. -/
theorem decodeReg_app_agree (cli : Transport) (endianness : String) (r : Reg)
    (hbm : r.type ≠ "bitmask16") (hmac : r.type ≠ "mac48") :
    decodeRegApp cli endianness r = decodeReg cli endianness r := by
  by_cases h16 : r.type = "uint16" ∨ r.type = "int16" ∨ r.type = "enum16" ∨
      r.type = "bool16" ∨ r.type = "command16"
  · rcases h16 with h | h | h | h | h <;> simp [decodeRegApp, decodeReg, h]
  · by_cases h32 : r.type = "uint32" ∨ r.type = "int32" ∨ r.type = "ip32"
    · rcases h32 with h | h | h <;> simp [decodeRegApp, decodeReg, h]
    · by_cases ha : r.type = "ascii"
      · simp [decodeRegApp, decodeReg, ha]
      · simp [decodeRegApp, decodeReg, h16, h32, ha, hbm, hmac]

/-- The acquisition folds agree register-wise when no register has one
of the two diverging types. -/
theorem foldl_decode_congr (cli : Transport) (endianness : String) :
    ∀ (regs : List Reg) (out : List (String × Value)),
      (∀ r ∈ regs, r.type ≠ "bitmask16" ∧ r.type ≠ "mac48") →
      regs.foldl (fun o r => dictInsert o r.name (decodeRegApp cli endianness r)) out
        = regs.foldl (fun o r => dictInsert o r.name (decodeReg cli endianness r)) out
  | [], _, _ => rfl
  | r :: rs, out, h => by
    simp only [List.foldl_cons]
    rw [decodeReg_app_agree cli endianness r (h r (by simp)).1 (h r (by simp)).2]
    exact foldl_decode_congr cli endianness rs _
      (fun r' hr' => h r' (List.mem_cons_of_mem _ hr'))


/-! Claim theorems. -/

/-- Claim C1: for every register list with distinct names and any
transport whose reads of one register `r0` all raise, `read_all`
stores the `'ERR:…'` marker under `r0`'s name and still decodes every
other register of the pass normally; the embedding of `read_all` is a
total function, so it never raises because of a single register's
failure. -/
theorem read_all_isolates_register_failure (cli : Transport) (endianness en : String)
    (regs : List Reg) (r0 : Reg)
    (hnd : (regs.map Reg.name).Nodup) (hmem : r0 ∈ regs)
    (hsupp : r0.type ∈ supportedTypes)
    (herr : ∀ count, cli r0.address count r0.function = Except.error en) :
    List.lookup r0.name (read_all cli regs endianness) = some (errVal en) ∧
    ∀ r ∈ regs, r.name ≠ r0.name →
      List.lookup r.name (read_all cli regs endianness) = some (decodeReg cli endianness r) := by
  rw [read_all_eq_map cli endianness regs hnd]
  constructor
  · rw [lookup_map_name _ regs hnd r0 hmem, decodeReg_of_err cli endianness r0 en hsupp herr]
  · intro r hr _
    exact lookup_map_name _ regs hnd r hr

/-- Witness for C1: the spec's own scenario — a transport that raises
only for address 10 — at a concrete two-register list. -/
theorem read_all_isolates_register_failure_witness :
    List.lookup "A" (read_all cliAddr10Err [regA, regB] "big")
      = some (Value.str "ERR:NoResponseError") ∧
    List.lookup "B" (read_all cliAddr10Err [regA, regB] "big") = some (Value.num 5) := by
  have h := read_all_isolates_register_failure cliAddr10Err "big" "NoResponseError"
    [regA, regB] regA (by decide) (by decide) (by decide) (fun _ => rfl)
  exact ⟨h.1, (h.2 regB (by decide) (by decide)).trans (by simp [decodeReg, cliAddr10Err, regB])⟩

/-- Claim C2 (code-bug evidence): the decoder has no two's-complement
conversion for `int16` — the raw word `0x8000` at `scale = 1.0` decodes
to `32768`, not to `-32768` as the spec requires; `int16` falls into
the same unsigned branch as `uint16` (modbus_client.py line 54). -/
theorem int16_decode_is_unsigned :
    decodeReg cli8000 "big" int16Reg = Value.num 32768 ∧
    decodeReg cli8000 "big" int16Reg ≠ Value.num (-32768) := by
  have h : decodeReg cli8000 "big" int16Reg = Value.num 32768 := by
    simp [decodeReg, cli8000, int16Reg]
  refine ⟨h, ?_⟩
  rw [h]
  simp only [ne_eq, Value.num.injEq]
  norm_num

/-- Claim C3 (code-bug evidence): the decode∘encode round trip fails
for `int16`.  Encoding the in-range engineering value `-1` at
`scale = 1.0` yields the raw value `-1`, which is not a writable
unsigned 16-bit register word, and decoding its 16-bit
two's-complement image `0xFFFF` returns `65535`, not `-1` — the same
missing sign conversion as in C2. -/
theorem int16_roundtrip_fails :
    scale_to_raw (-1) int16Reg = -1 ∧
    decodeReg cliFFFF "big" int16Reg = Value.num 65535 ∧
    decodeReg cliFFFF "big" int16Reg ≠ Value.num (-1) := by
  refine ⟨?_, ?_, ?_⟩
  · norm_num [scale_to_raw, pyRound, int16Reg]
  · simp [decodeReg, cliFFFF, int16Reg]
  · have h : decodeReg cliFFFF "big" int16Reg = Value.num 65535 := by
      simp [decodeReg, cliFFFF, int16Reg]
    rw [h]
    simp only [ne_eq, Value.num.injEq]
    norm_num

/-- Claim C4 (amended): when all descriptor names are pairwise
distinct, the mapping returned by `read_all` has exactly one entry per
descriptor, keyed by the descriptor's name, in register-list order,
and the entry is present even when the decode failed. -/
theorem read_all_entries_of_distinct_names (cli : Transport) (endianness : String)
    (regs : List Reg) (hnd : (regs.map Reg.name).Nodup) :
    read_all cli regs endianness
      = regs.map (fun r => (r.name, decodeReg cli endianness r)) :=
  read_all_eq_map cli endianness regs hnd

/-- Witness for C4: a concrete two-register list, one of which errors —
both keys present, in order. -/
theorem read_all_entries_of_distinct_names_witness :
    read_all cliAddr10Err [regA, regB] "big"
      = [("A", Value.str "ERR:NoResponseError"), ("B", Value.num 5)] := by
  rw [read_all_entries_of_distinct_names cliAddr10Err "big" [regA, regB] (by decide)]
  simp [decodeReg, regA, regB, cliAddr10Err, errVal]

/-- Counterexample for C4 as stated: with a duplicated descriptor the
mapping has a single entry, not one entry per descriptor — the Python
dict collapses equal names. -/
theorem read_all_duplicate_name_collapses :
    read_all cliThree [dupReg, dupReg] "big" = [("D", Value.bool true)] ∧
    (read_all cliThree [dupReg, dupReg] "big").length ≠ 2 := by decide

/-- Claim C5 (code-bug evidence): a CONNECTED acquisition pass over a
transport whose every read raises `SerialException` leaves the worker
loop CONNECTED with the client kept, and emits a data event of
all-`'ERR:'` values — no status event and no transition to
DISCONNECTED ever happens, because `read_all` absorbs every transport
exception per register and the loop's `except` branch is unreachable
from the acquisition. -/
theorem worker_stays_connected_on_transport_failure :
    (workerStep 1 none (fun _ _ _ => Except.error "unused") [regA, regB] "big"
        ⟨true, some errTransport⟩).1.connected = true ∧
    (workerStep 1 none (fun _ _ _ => Except.error "unused") [regA, regB] "big"
        ⟨true, some errTransport⟩).2
      = [Event.data [("A", Value.str "ERR:SerialException"),
                     ("B", Value.str "ERR:SerialException")]] :=
  ⟨rfl, rfl⟩

/-- Claim C6 (code-bug evidence): decoding the mac48 words
`[0x0011, 0x2233, 0x4455]` yields `"00:22:44:11:33:55"` — the high
bytes of all three words followed by the low bytes — and not the
interleaved `"00:11:22:33:44:55"` the spec's test vector requires. -/
theorem mac48_decode_scrambles_bytes :
    decodeReg cliMac "big" macReg = Value.str "00:22:44:11:33:55" ∧
    decodeReg cliMac "big" macReg ≠ Value.str "00:11:22:33:44:55" := by
  have h : decodeReg cliMac "big" macReg = Value.str "00:22:44:11:33:55" := by decide
  exact ⟨h, by rw [h]; decide⟩

/-- Claim C7: for all 16-bit words `w0, w1`, the 32-bit decode
assembles `w0·2^16 + w1` under `'big'` endianness and `w1·2^16 + w0`
under `'little'`, and `int32` subtracts `2^32` exactly when bit 31 of
the assembled value is set. -/
theorem int32_assembly (w0 w1 : Nat) (h0 : w0 < 65536) (h1 : w1 < 65536) :
    decodeReg (cliPair w0 w1) "big" uint32Reg = Value.num ((w0 * 65536 + w1 : ℕ) : ℚ) ∧
    decodeReg (cliPair w0 w1) "little" uint32Reg = Value.num ((w1 * 65536 + w0 : ℕ) : ℚ) ∧
    decodeReg (cliPair w0 w1) "big" int32Reg
      = Value.num (if 2147483648 ≤ w0 * 65536 + w1
          then ((w0 * 65536 + w1 : ℕ) : ℚ) - 4294967296
          else ((w0 * 65536 + w1 : ℕ) : ℚ)) ∧
    decodeReg (cliPair w0 w1) "little" int32Reg
      = Value.num (if 2147483648 ≤ w1 * 65536 + w0
          then ((w1 * 65536 + w0 : ℕ) : ℚ) - 4294967296
          else ((w1 * 65536 + w0 : ℕ) : ℚ)) := by
  have hbig : assemble32 "big" w0 w1 = w0 * 65536 + w1 := by
    simp [assemble32, shiftLeft16_or w0 w1 h1]
  have hlit : assemble32 "little" w0 w1 = w1 * 65536 + w0 := by
    simp [assemble32, shiftLeft16_or w1 w0 h0]
  refine ⟨?_, ?_, ?_, ?_⟩
  · simp [decodeReg, cliPair, uint32Reg, hbig, signFix32_other]
  · simp [decodeReg, cliPair, uint32Reg, hlit, signFix32_other]
  · have hfix := signFix32_int32_eq (w0 * 65536 + w1) (by omega)
    simp [decodeReg, cliPair, int32Reg, hbig, hfix]
  · have hfix := signFix32_int32_eq (w1 * 65536 + w0) (by omega)
    simp [decodeReg, cliPair, int32Reg, hlit, hfix]

/-- Witness for C7: the spec's three concrete examples. -/
theorem int32_assembly_witness :
    decodeReg (cliPair 1 0) "big" int32Reg = Value.num 65536 ∧
    decodeReg (cliPair 1 0) "little" int32Reg = Value.num 1 ∧
    decodeReg (cliPair 0xFFFF 0xFFFF) "big" int32Reg = Value.num (-1) := by
  have h1 := int32_assembly 1 0 (by norm_num) (by norm_num)
  have h2 := int32_assembly 0xFFFF 0xFFFF (by norm_num) (by norm_num)
  refine ⟨h1.2.2.1.trans ?_, h1.2.2.2.trans ?_, h2.2.2.1.trans ?_⟩ <;> norm_num

/-- Claim C8: discovery enumerates ports in given order, then
parities, then the fixed descending baud list, returns the first
triple whose probe decode is not an `'ERR:'` value, and returns `none`
exactly when every candidate fails (no candidate failure aborts the
scan — `probeOnce` is total). -/
theorem autodetect_first_success (env : String → Nat → String → Except String Transport)
    (probe : Reg) (endianness : String) (ports : List String) :
    autodetect env probe endianness ports
      = (candidateTriples ports).find?
          (fun c => probeOnce env c.1 c.2.1 c.2.2 probe endianness) ∧
    (autodetect env probe endianness ports = none ↔
      ∀ c ∈ candidateTriples ports,
        probeOnce env c.1 c.2.1 c.2.2 probe endianness = false) ∧
    ∀ port baud parity cli, env port baud parity = Except.ok cli →
      probeOnce env port baud parity probe endianness
        = !(isErrStr (decodeReg cli endianness probe)) := by
  have hinner : ∀ port parity,
      (COMMON_BAUDS.findSome? fun baud =>
        if probeOnce env port baud parity probe endianness then some (port, baud, parity)
        else none)
      = ((COMMON_BAUDS.map fun baud => (port, baud, parity)).find?
          fun c => probeOnce env c.1 c.2.1 c.2.2 probe endianness) :=
    fun port parity =>
      findSome?_guard_map
        (fun c => probeOnce env c.1 c.2.1 c.2.2 probe endianness)
        (fun baud => (port, baud, parity)) COMMON_BAUDS
  have hmid : ∀ port,
      (COMMON_PARITIES.findSome? fun parity =>
        COMMON_BAUDS.findSome? fun baud =>
          if probeOnce env port baud parity probe endianness then some (port, baud, parity)
          else none)
      = ((COMMON_PARITIES.flatMap fun parity =>
            COMMON_BAUDS.map fun baud => (port, baud, parity)).find?
          fun c => probeOnce env c.1 c.2.1 c.2.2 probe endianness) := by
    intro port
    rw [show (fun parity =>
          COMMON_BAUDS.findSome? fun baud =>
            if probeOnce env port baud parity probe endianness then some (port, baud, parity)
            else none)
        = (fun parity =>
            ((COMMON_BAUDS.map fun baud => (port, baud, parity)).find?
              fun c => probeOnce env c.1 c.2.1 c.2.2 probe endianness))
      from funext (hinner port)]
    exact findSome?_find?_flatMap _ _ COMMON_PARITIES
  have hmain : autodetect env probe endianness ports
      = (candidateTriples ports).find?
          (fun c => probeOnce env c.1 c.2.1 c.2.2 probe endianness) := by
    unfold autodetect candidateTriples
    rw [show (fun port =>
          COMMON_PARITIES.findSome? fun parity =>
            COMMON_BAUDS.findSome? fun baud =>
              if probeOnce env port baud parity probe endianness then some (port, baud, parity)
              else none)
        = (fun port =>
            ((COMMON_PARITIES.flatMap fun parity =>
                COMMON_BAUDS.map fun baud => (port, baud, parity)).find?
              fun c => probeOnce env c.1 c.2.1 c.2.2 probe endianness))
      from funext hmid]
    exact findSome?_find?_flatMap _ _ ports
  refine ⟨hmain, ?_, ?_⟩
  · rw [hmain, List.find?_eq_none]
    constructor
    · intro h c hc
      simpa using h c hc
    · intro h c hc
      simp [h c hc]
  · intro port baud parity cli hok
    simp [probeOnce, hok, read_all, dictInsert, List.lookup]

/-- Witness for C8: an always-erroring transport and an empty port
list both yield "not found". -/
theorem autodetect_first_success_witness :
    autodetect envFail regB "big" ["COM3"] = none ∧
    autodetect envFail regB "big" [] = none := by
  refine ⟨(autodetect_first_success envFail regB "big" ["COM3"]).2.1.mpr (by decide), ?_⟩
  exact (autodetect_first_success envFail regB "big" []).2.1.mpr (by decide)

/-- Claim C9: the write path clamps the parsed engineering value to
`[min, max]` (in engineering units) before dividing by the scale and
rounding, and a zero scale means no scaling rather than a division by
zero. -/
theorem write_clamps_before_scaling (reg : Reg) (fv mn mx : ℚ)
    (hmin : reg.min = some mn) (hmax : reg.max = some mx) :
    onWriteNumeric reg fv = scale_to_raw (min mx (max mn fv)) reg ∧
    (reg.scale ≠ 0 → onWriteNumeric reg fv = pyRound (min mx (max mn fv) / reg.scale)) ∧
    (reg.scale = 0 → onWriteNumeric reg fv = pyRound (min mx (max mn fv))) := by
  have h1 : onWriteNumeric reg fv = scale_to_raw (min mx (max mn fv)) reg := by
    simp [onWriteNumeric, hmin, hmax]
  refine ⟨h1, ?_, ?_⟩
  · intro hs
    rw [h1]
    simp [scale_to_raw, hs]
  · intro hs
    rw [h1]
    simp [scale_to_raw, hs]

/-- Witness for C9: bounds `(0, 100)` with input `150` encodes to
`100`, with scale `1` and with scale `0`. -/
theorem write_clamps_before_scaling_witness :
    onWriteNumeric boundsReg 150 = 100 ∧ onWriteNumeric boundsRegZeroScale 150 = 100 := by
  have h1 := (write_clamps_before_scaling boundsReg 150 0 100 rfl rfl).1
  have h2 := (write_clamps_before_scaling boundsRegZeroScale 150 0 100 rfl rfl).2.2 rfl
  constructor
  · rw [h1]
    norm_num [scale_to_raw, pyRound, boundsReg]
  · rw [h2]
    norm_num [pyRound]

/-- Claim C10 (amended): the two acquisition implementations agree on
every register list that contains no `bitmask16` and no `mac48`
descriptor; on those two types `app.py` yields `'UNSUPPORTED'` while
`modbus_client.py` decodes them. -/
theorem read_all_app_eq_read_all (cli : Transport) (regs : List Reg) (endianness : String)
    (h : ∀ r ∈ regs, r.type ≠ "bitmask16" ∧ r.type ≠ "mac48") :
    read_all_app cli regs endianness = read_all cli regs endianness :=
  foldl_decode_congr cli endianness regs [] h

/-- Witness for C10 (amended): the two implementations agree on a
concrete list covering every non-diverging type. -/
theorem read_all_app_eq_read_all_witness :
    read_all_app cliWords regsMixed "big" = read_all cliWords regsMixed "big" :=
  read_all_app_eq_read_all cliWords regsMixed "big" (by decide)

/-- Counterexample for C10 as stated: on `mac48` and `bitmask16`
registers the two implementations differ. -/
theorem read_all_app_unsupported_counterexample :
    read_all_app cliMac [macReg] "big" ≠ read_all cliMac [macReg] "big" ∧
    read_all_app cliThree [bitmaskReg] "big" ≠ read_all cliThree [bitmaskReg] "big" := by
  decide
